import Mathlib

/-!
Verification of the vilog logging library (src/) against its specification.

Conventions of the shallow embedding:
* JavaScript numbers are modeled as exact rationals (`ℚ`).  Every concrete
  input evaluated below is a decimal literal for which the IEEE-754 double
  computation of the source and the exact rational computation agree on the
  compared results.
* JavaScript strings are modeled as `String`; an out-of-range array access
  that is subsequently concatenated into a string is modeled by the string
  "undefined", mirroring JS `str + undefined`.
* Fallible operations (`throw`) are modeled with `Except`.
* Global mutable state (`timer`, `Vilog.#buffer`, `Vilog.#disabled`, the
  instance registry) is modeled by explicit state records threaded through
  the operations; the monotonic clock `now()` is modeled as a stream of
  readings `ℕ → ℚ` consumed one tick per call.
-/

/-! ## Duration formatter: src/formatDuration.js -/

/-- Day length in milliseconds (src/formatDuration.js line 6). -/
def DAY : ℚ := 86400000

/-- Hour length in milliseconds (src/formatDuration.js line 7). -/
def HOUR : ℚ := 3600000

/-- Minute length in milliseconds (src/formatDuration.js line 8). -/
def MINUTE : ℚ := 60000

/-- Postfix table used to extend decimals to exactly 3 places
(src/formatDuration.js line 14: `const zeros = ['00', '0']`). -/
def zeros : List String := ["00", "0"]

/-- Compact unit labels in order, ns → µs → ms → s → m → h → d
(src/formatDuration.js line 20). -/
def units : List String := ["ns", "µs", "ms", "s", "m", "h", "d"]

/-- String displayed between the count and the unit (src/formatDuration.js line 26). -/
def spacer : String := ""

/-- String displayed between units (src/formatDuration.js line 32). -/
def delimiter : String := " "

/-- Model of a JS array access `arr[i]` whose result is then used in string
concatenation: an out-of-range access yields `undefined`, which JS string
concatenation renders as the text "undefined". -/
def jsArrayGetStr (l : List String) (i : ℕ) : String := (l.get? i).getD "undefined"

/-- Scale factors from milliseconds to thousandths of the target unit
(src/formatDuration.js line 42: `const factor = [1e9, 1e6, 1e3, 1, 1e-3]`). -/
def factor : List ℚ := [1000000000, 1000000, 1000, 1, 1/1000]

/-- Rounding bias `0.5 + 1e-12` (src/formatDuration.js line 50). -/
def epsilon : ℚ := 1/2 + 1/1000000000000

/-- Integer count of thousandths of the target unit:
`Math.floor(ms * factor[idx] + epsilon)` (src/formatDuration.js line 59). -/
def toUnit (ms : ℚ) (idx : ℕ) : ℤ := ⌊ms * ((factor.get? idx).getD 0) + epsilon⌋

/-- Unit index selection for the sub-minute range
(src/formatDuration.js line 110: `ms < 1e-3 ? 0 : ms < 1 ? 1 : ms < 1e3 ? 2 : 3`). -/
def pickIdx (ms : ℚ) : ℕ :=
  if ms < 1/1000 then 0 else if ms < 1 then 1 else if ms < 1000 then 2 else 3

/-- Trailing zeros of a digit string are dropped. Helper for `renderThousandths`. -/
def dropTrailingZeros (s : String) : String :=
  ⟨(s.data.reverse.dropWhile (· = '0')).reverse⟩

/-- Three-digit zero padding of a value `n < 1000`. Helper for `renderThousandths`. -/
def pad3 (n : ℕ) : String :=
  if n < 10 then "00" ++ toString n else if n < 100 then "0" ++ toString n else toString n

/-- Model of the JS number-to-string conversion `'' + (val / 1e3)`
(src/formatDuration.js line 127) for an integer `val`: the decimal value
`val / 1000` printed with its (up to 3) fractional digits, trailing
fractional zeros omitted — which is exactly the shortest round-trip
representation JS prints for such a double. -/
def renderThousandths (val : ℕ) : String :=
  let ip := val / 1000
  let fr := val % 1000
  if fr = 0 then toString ip else toString ip ++ "." ++ dropTrailingZeros (pad3 fr)

/-- Position of the first `.` in a string, JS `out.indexOf('.')`
(src/formatDuration.js line 130); `none` models the JS result `-1`. -/
def jsIndexOfDot (s : String) : Option ℕ := s.data.findIdx? (· = '.')

/-- Sub-minute branch of `formatDuration` after the unit index `idx` and the
integer thousandths count `val` are computed (src/formatDuration.js
lines 113-134).  `val.toNat` is safe because the source assumes `ms >= 0`. -/
def subMinuteCore (idx : ℕ) (val : ℤ) (trim : Bool) : String :=
  -- carry once if rounding hit 1000.000 of the current unit (lines 117-119)
  if idx < 3 ∧ val ≥ 1000000 then "1" ++ spacer ++ jsArrayGetStr units (idx + 1)
  -- 59_999.999 ms rounds to 60.000s → promote to "1m 0s" (lines 122-124)
  else if idx = 3 ∧ val ≥ 60000 then
    "1" ++ spacer ++ jsArrayGetStr units 4 ++ " 0" ++ spacer ++ jsArrayGetStr units 3
  else
    -- format fractional part, 3 decimals max (line 127)
    let out := renderThousandths val.toNat
    -- `if (!trim) out += ~pos ? zeros[out.length - pos - 2] : '.000'` (lines 129-132)
    let out2 :=
      if !trim then
        match jsIndexOfDot out with
        | none => out ++ ".000"
        | some pos => out ++ jsArrayGetStr zeros (out.length - pos - 2)
      else out
    out2 ++ spacer ++ jsArrayGetStr units idx

/-- Carry seconds → minutes → hours → days (src/formatDuration.js lines 151-162). -/
def carryUp (d h m s : ℤ) : ℤ × ℤ × ℤ × ℤ :=
  if s ≥ 60 then
    let m2 := m + 1
    if m2 = 60 then
      let h2 := h + 1
      if h2 = 24 then (d + 1, 0, 0, 0) else (d, h2, 0, 0)
    else (d, h, m2, 0)
  else (d, h, m, s)

/-- Joining of the `d h m s` parts, omitting leading zero units
(src/formatDuration.js lines 164-171). -/
def minuteUpParts (d h m s : ℤ) : String :=
  let (d, h, m, s) := carryUp d h m s
  let parts : List String :=
    (if d ≠ 0 then [toString d ++ spacer ++ jsArrayGetStr units 6] else []) ++
    (if d ≠ 0 ∨ h ≠ 0 then [toString h ++ spacer ++ jsArrayGetStr units 5] else []) ++
    (if d ≠ 0 ∨ h ≠ 0 ∨ m ≠ 0 then [toString m ++ spacer ++ jsArrayGetStr units 4] else []) ++
    [toString s ++ spacer ++ jsArrayGetStr units 3]
  String.intercalate delimiter parts

/-- Minute-and-up branch: decompose into days/hours/minutes by successive
integer division and truncate the remaining milliseconds to whole seconds
(src/formatDuration.js lines 138-148).  `(x / k) | 0` on the non-negative
values the source assumes is exact integer floor division. -/
def minuteUp (ms : ℚ) : String :=
  let d := ⌊ms / DAY⌋
  let ms := ms - d * DAY
  let h := ⌊ms / HOUR⌋
  let ms := ms - h * HOUR
  let m := ⌊ms / MINUTE⌋
  let ms := ms - m * MINUTE
  let s := ⌊ms / 1000⌋
  minuteUpParts d h m s

/-- Embedding of `formatDuration(ms, {trim})` (src/formatDuration.js
lines 106-172).  The default of the `trim` option is `true`. -/
def formatDuration (ms : ℚ) (trim : Bool := true) : String :=
  if ms < MINUTE then subMinuteCore (pickIdx ms) (toUnit ms (pickIdx ms)) trim
  else minuteUp ms

/-- Evaluation helper: `minuteUp` at explicitly given floor values. -/
theorem minuteUp_eval (ms : ℚ) (d h m s : ℤ)
    (hd : ⌊ms / DAY⌋ = d)
    (hh : ⌊(ms - d * DAY) / HOUR⌋ = h)
    (hm : ⌊(ms - d * DAY - h * HOUR) / MINUTE⌋ = m)
    (hs : ⌊(ms - d * DAY - h * HOUR - m * MINUTE) / 1000⌋ = s) :
    minuteUp ms = minuteUpParts d h m s := by
  simp only [minuteUp]
  rw [hd, hh, hm, hs]

/-- Evaluation helper: `formatDuration` in the sub-minute range at explicitly
given index and thousandths count. -/
theorem formatDuration_subMinute_eval (ms : ℚ) (trim : Bool) (idx : ℕ) (val : ℤ)
    (hms : ms < MINUTE) (hidx : pickIdx ms = idx) (hval : toUnit ms idx = val) :
    formatDuration ms trim = subMinuteCore idx val trim := by
  unfold formatDuration
  rw [if_pos hms, hidx, hval]

/-- Evaluation helper: `formatDuration` in the minute-up range. -/
theorem formatDuration_minuteUp_eval (ms : ℚ) (trim : Bool)
    (hms : ¬ ms < MINUTE) :
    formatDuration ms trim = minuteUp ms := by
  unfold formatDuration
  rw [if_neg hms]

/-- C3: formatDuration rounds half-up to thousandths of the selected unit
below one minute, carrying into the next unit exactly at the boundary, and
truncates (never rounds) leftover milliseconds at or above one minute:
`formatDuration(59999.500) = "1m 0s"`, `formatDuration(59999.499) = "59.999s"`,
`formatDuration(999.9996) = "1s"`, `formatDuration(0.9999995) = "1ms"`,
`formatDuration(119999.999) = "1m 59s"`. -/
theorem C3_formatDuration_rounding_boundaries :
    formatDuration 59999.5 = "1m 0s" ∧
    formatDuration 59999.499 = "59.999s" ∧
    formatDuration 999.9996 = "1s" ∧
    formatDuration 0.9999995 = "1ms" ∧
    formatDuration 119999.999 = "1m 59s" := by
  refine ⟨?_, ?_, ?_, ?_, ?_⟩
  · have hidx : pickIdx 59999.5 = 3 := by norm_num [pickIdx]
    have hval : toUnit 59999.5 3 = 60000 := by
      norm_num [toUnit, factor, epsilon, Int.floor_eq_iff]
    rw [formatDuration_subMinute_eval 59999.5 true 3 60000 (by norm_num [MINUTE]) hidx hval]
    decide
  · have hidx : pickIdx 59999.499 = 3 := by norm_num [pickIdx]
    have hval : toUnit 59999.499 3 = 59999 := by
      norm_num [toUnit, factor, epsilon, Int.floor_eq_iff]
    rw [formatDuration_subMinute_eval 59999.499 true 3 59999 (by norm_num [MINUTE]) hidx hval]
    decide
  · have hidx : pickIdx 999.9996 = 2 := by norm_num [pickIdx]
    have hval : toUnit 999.9996 2 = 1000000 := by
      norm_num [toUnit, factor, epsilon, Int.floor_eq_iff]
    rw [formatDuration_subMinute_eval 999.9996 true 2 1000000 (by norm_num [MINUTE]) hidx hval]
    decide
  · have hidx : pickIdx 0.9999995 = 1 := by norm_num [pickIdx]
    have hval : toUnit 0.9999995 1 = 1000000 := by
      norm_num [toUnit, factor, epsilon, Int.floor_eq_iff]
    rw [formatDuration_subMinute_eval 0.9999995 true 1 1000000 (by norm_num [MINUTE]) hidx hval]
    decide
  · rw [formatDuration_minuteUp_eval 119999.999 true (by norm_num [MINUTE])]
    rw [minuteUp_eval 119999.999 0 0 1 59]
    · decide
    · norm_num [DAY, Int.floor_eq_iff]
    · norm_num [DAY, HOUR, Int.floor_eq_iff]
    · norm_num [DAY, HOUR, MINUTE, Int.floor_eq_iff]
    · norm_num [DAY, HOUR, MINUTE, Int.floor_eq_iff]

/-- C6 (code bug): with trimming disabled the source promises exactly 3
decimals (doc comment of `formatDuration` and of `zeros`), and it does pad
values with 0, 1 or 2 fractional digits (`formatDuration(1.1, {trim:false})
= "1.100ms"`), but when the rounded value already has three fractional
digits, `zeros[out.length - pos - 2]` reads `zeros[2]`, which is `undefined`
and gets concatenated verbatim: `formatDuration(1.111, {trim:false})`
evaluates to `"1.111undefinedms"` instead of the documented `"1.111ms"`. -/
theorem C6_trim_false_three_decimals_bug_eval :
    formatDuration 1.111 false = "1.111undefinedms" ∧
    formatDuration 1.1 false = "1.100ms" ∧
    formatDuration 1 false = "1.000ms" := by
  refine ⟨?_, ?_, ?_⟩
  · have hidx : pickIdx 1.111 = 2 := by norm_num [pickIdx]
    have hval : toUnit 1.111 2 = 1111 := by
      norm_num [toUnit, factor, epsilon, Int.floor_eq_iff]
    rw [formatDuration_subMinute_eval 1.111 false 2 1111 (by norm_num [MINUTE]) hidx hval]
    decide
  · have hidx : pickIdx 1.1 = 2 := by norm_num [pickIdx]
    have hval : toUnit 1.1 2 = 1100 := by
      norm_num [toUnit, factor, epsilon, Int.floor_eq_iff]
    rw [formatDuration_subMinute_eval 1.1 false 2 1100 (by norm_num [MINUTE]) hidx hval]
    decide
  · have hidx : pickIdx 1 = 2 := by norm_num [pickIdx]
    have hval : toUnit 1 2 = 1000 := by
      norm_num [toUnit, factor, epsilon, Int.floor_eq_iff]
    rw [formatDuration_subMinute_eval 1 false 2 1000 (by norm_num [MINUTE]) hidx hval]
    decide

/-! ## Pattern matching and enablement: src/helpers.js, src/index.js -/

/-- Embedding of `matchPattern(pattern, str)` (src/helpers.js lines 62-71):
exact string equality or a trailing-`*` prefix wildcard; `'*'` alone matches
everything. -/
def matchPattern (pattern str : String) : Bool :=
  if pattern = "*" then true
  else if pattern.data.getLast? == some '*' && pattern.data.dropLast.isPrefixOf str.data then
    true
  else pattern = str

/-- Embedding of `Vilog.isDisabled(name)` (src/index.js lines 328-337).
The source only consults the global `'*'` rule; the per-pattern loop
(`for (const pattern of disabled) if (matchPattern(pattern, name)) ...`)
is commented out behind `// TODO: enable when patterns are supported`,
so exact-name and prefix patterns present in the disabled set are ignored. -/
def isDisabled (disabled : List String) (_name : String) : Bool :=
  disabled.contains "*"

/-- Embedding of `Vilog.disable(pattern)` (src/index.js lines 301-308):
an empty pattern clears the set and inserts `'*'`; otherwise the pattern is
added to the set.  `none` models a missing argument, `some ""` the empty
string (both are falsy in JS). -/
def disable (disabled : List String) (pattern : Option String) : List String :=
  match pattern with
  | none => ["*"]
  | some p =>
    if p = "" then ["*"]
    else if disabled.contains p then disabled else disabled ++ [p]

/-- Embedding of `Vilog.enable(pattern)` (src/index.js lines 315-321):
empty or `'*'` clears all rules, otherwise the named rule is removed. -/
def enable (disabled : List String) (pattern : Option String) : List String :=
  match pattern with
  | none => []
  | some p => if p = "" ∨ p = "*" then [] else disabled.erase p

/-! ## Buffered entries, flush ordering: src/index.js lines 72-294 -/

/-- One buffered entry pushed by `_log` in silent mode
(src/index.js lines 479-485). -/
structure Entry where
  seq : ℕ
  t : ℚ
  name : String
  level : String
  output : String
deriving DecidableEq, Repr

/-- JS short-circuit `x || y` on comparator values: the first operand is
returned unless it is `0`. -/
def jsOr (x y : ℚ) : ℚ := if x = 0 then y else x

/-- Model of `a.localeCompare(b)`: negative, zero or positive according to
the string ordering.  The locale order of the plain ASCII namespaces the
library works with is modeled by the lexicographic `String` order. -/
def lcmp (a b : String) : ℚ := if a < b then -1 else if b < a then 1 else 0

/-- Comparator of `flush({orderBy:'time'})`
(src/index.js line 260: `a.t - b.t || a.seq - b.seq || a.name.localeCompare(b.name)`). -/
def cmpByTime (a b : Entry) : ℚ :=
  jsOr (a.t - b.t) (jsOr ((a.seq : ℚ) - (b.seq : ℚ)) (lcmp a.name b.name))

/-- Comparator of `flush({orderBy:'name'})`
(src/index.js line 256: `a.name.localeCompare(b.name) || a.t - b.t || a.seq - b.seq`). -/
def cmpByName (a b : Entry) : ℚ :=
  jsOr (lcmp a.name b.name) (jsOr (a.t - b.t) ((a.seq : ℚ) - (b.seq : ℚ)))

/-- Boolean "less or equal" derived from the `'time'` comparator; JS
`Array.prototype.sort` with a consistent comparator produces exactly a
stable sort by this relation. -/
def sortLeTime (a b : Entry) : Bool := decide (cmpByTime a b ≤ 0)

/-- Boolean "less or equal" derived from the `'name'` comparator. -/
def sortLeName (a b : Entry) : Bool := decide (cmpByName a b ≤ 0)

/-- Model of the `ansis` `color.strip` capability (an external collaborator
of the library): characters between an ESC and the terminating `m` of an
ANSI style sequence are removed. -/
def stripAnsi (s : String) : String :=
  ⟨(s.data.foldl
      (fun (acc : List Char × Bool) c =>
        match acc.2, c with
        | true, 'm' => (acc.1, false)
        | true, _ => acc
        | false, '\x1b' => (acc.1, true)
        | false, c => (acc.1 ++ [c], false))
      ([], false)).1⟩

/-! ## Global logger state -/

/-- The process-wide mutable state of the library: the static fields of
`Vilog` (src/index.js lines 66-82), the `timer` singleton state
(src/timer.js lines 34-38), the monotonic clock modeled as a stream of
readings, and the output sink accumulating everything written via `view`. -/
structure LogSys where
  disabled : List String
  buffer : List Entry
  maxBuffer : Option ℕ
  seqBuffer : ℕ
  flushOrderBy : String
  lastTime : ℚ
  startTime : ℚ
  sink : List String
  clock : ℕ → ℚ
  tick : ℕ

/-- One reading of the high-resolution clock `now()` (src/timer.js line 32). -/
def nowTick (sys : LogSys) : ℚ × LogSys :=
  (sys.clock sys.tick, { sys with tick := sys.tick + 1 })

/-- Comparator selection of `Vilog.flush` (src/index.js lines 253-262):
sort by the `'name'` or `'time'` comparator, or leave the buffer order
untouched for any other `orderBy` value. -/
def flushSorted (buffer : List Entry) (orderBy : String) : List Entry :=
  if orderBy = "name" then buffer.mergeSort sortLeName
  else if orderBy = "time" then buffer.mergeSort sortLeTime
  else buffer

/-- Embedding of `Vilog.flush({orderBy, colored, ret})`
(src/index.js lines 249-271): on an empty buffer return `''` immediately;
otherwise sort in place by the requested comparator, join outputs with a
newline, reset the buffer, write to the sink unless `ret`, and strip the
styling codes of the returned string unless `colored`. -/
def flush (sys : LogSys) (orderBy : String) (colored ret : Bool) : LogSys × String :=
  if sys.buffer.isEmpty then (sys, "")
  else
    let list := flushSorted sys.buffer orderBy
    let result := String.intercalate "\n" (list.map Entry.output)
    let sys := { sys with buffer := [] }
    let sys := if ret then sys else { sys with sink := sys.sink ++ [result] }
    let result := if colored then result else stripAnsi result
    (sys, result)

/-! ## Timer: src/timer.js -/

/-- Result record of `timer.measure()` (src/timer.js lines 109-126). -/
structure Measured where
  duration : ℚ
  elapsed : ℚ
  durationFmt : String
  elapsedFmt : String

/-- Embedding of `timer.measure()` (src/timer.js lines 109-126): reads
`now()`, computes the raw and formatted duration/elapsed values, reads
`now()` once more for the debug-only `overhead` field, and finally advances
`lastTime` to a fresh `now()` reading. -/
def timerMeasure (sys : LogSys) : Measured × LogSys :=
  let (endT, sys) := nowTick sys
  let duration := endT - sys.lastTime
  let elapsed := endT - sys.startTime
  let durationFmt := formatDuration duration
  let elapsedFmt := formatDuration elapsed
  let (_, sys) := nowTick sys
  let (t, sys) := nowTick sys
  (⟨duration, elapsed, durationFmt, elapsedFmt⟩, { sys with lastTime := t })

/-- Embedding of `timer.updateTimer()` (src/timer.js lines 76-78). -/
def updateTimer (sys : LogSys) : LogSys :=
  let (t, sys) := nowTick sys
  { sys with lastTime := t }

/-! ## The per-call pipeline `_log`: src/index.js lines 429-494 -/

/-- The per-instance data `_log` depends on.  `render` abstracts the
message-formatting, token-resolution and layout-rendering steps of
src/index.js lines 447-471 (their output is the rendered line as a function
of the formatted message and the measured timings); the claims settled
through `logStep` do not depend on the rendered text. -/
structure Inst where
  name : String
  optName : String
  silent : Bool
  render : String → Measured → String

/-- Silent-mode dispatch of `_log` (src/index.js lines 474-485): if the
buffer would exceed capacity, auto-flush once using the configured default
ordering (`colored` is not passed and is therefore falsy), then push a new
entry carrying the global sequence number and a fresh `now()` reading. -/
def bufferAppend (sys : LogSys) (name level output : String) : LogSys :=
  let sys :=
    match sys.maxBuffer with
    | none => sys
    | some cap =>
      if sys.buffer.length + 1 > cap then (flush sys sys.flushOrderBy false false).1 else sys
  let (t, sys) := nowTick sys
  { sys with
      buffer := sys.buffer ++ [⟨sys.seqBuffer, t, name, level, output⟩],
      seqBuffer := sys.seqBuffer + 1 }

/-- Embedding of `Vilog._log(level, msg, ...data)` (src/index.js
lines 429-494).  `msg = none` models a falsy message argument (a profiling
mark); `msg = some m` models a truthy one, with `m` the message after the
Error coercion and `_format` steps of lines 447-452.  The pipeline: save
`timer.lastTime`, measure, restore-and-return if the namespace is disabled,
mark-only on a falsy message, otherwise render, dispatch to the buffer
(silent mode) or the sink, and advance the timer after rendering. -/
def logStep (inst : Inst) (level : String) (msg : Option String) (sys : LogSys) :
    LogSys × Option String :=
  let lastTime := sys.lastTime
  let (measured, sys) := timerMeasure sys
  if isDisabled sys.disabled inst.name then
    ({ sys with lastTime := lastTime }, none)
  else
    match msg with
    | none => (updateTimer sys, none)
    | some m =>
      let output := inst.render m measured
      let sys :=
        if inst.silent then bufferAppend sys inst.name level output
        else { sys with sink := sys.sink ++ [output] }
      (updateTimer sys, some output)

/-! ## peek: src/index.js lines 279-294 -/

/-- Subset of JS values a caller can pass for the `name` argument of
`Vilog.peek`. -/
inductive JsValue where
  | undef
  | nullv
  | str (s : String)
  | num (q : ℚ)
  | bool (b : Bool)
deriving DecidableEq

/-- Error message thrown by `Vilog.peek` (src/index.js line 281). -/
def peekErr : String := "Vilog.peek: \"name\" must be a non-empty string."

/-- Embedding of `Vilog.peek(name)` (src/index.js lines 279-294).  The
guard `if (!name || typeof name !== 'string') throw new TypeError(...)`
rejects every non-string value (truthy ones fail the `typeof` test, falsy
ones fail `!name`) and the empty string; for a non-empty string the method
only reads the buffer — it joins the outputs of the entries whose `name`
matches exactly, returning `''` when the buffer is empty or nothing
matches, and performs no mutation (hence a pure function of the buffer). -/
def peek (buffer : List Entry) (name : JsValue) : Except String String :=
  match name with
  | .str s =>
    if s = "" then .error peekErr
    else if buffer.isEmpty then .ok ""
    else
      let items := buffer.filter (fun e => e.name = s)
      if items.isEmpty then .ok ""
      else .ok (String.intercalate "\n" (items.map Entry.output))
  | _ => .error peekErr

/-! ## Constructor and instance registry: src/index.js lines 150-209 -/

/-- The static instance registry (src/index.js line 67), the auto-naming
counter `logIdx` (line 45), an allocation counter modeling object identity
of the created callable instances, and the `console.warn` channel. -/
structure Registry where
  instances : List (String × ℕ)
  nextId : ℕ
  logIdx : ℕ
  warnings : List String

/-- Lookup in the registry map, `Vilog.instances.get(name)`. -/
def lookupInst (l : List (String × ℕ)) (n : String) : Option ℕ :=
  (l.find? (fun p => p.1 = n)).map (·.2)

/-- Warning text of a duplicate construction (src/index.js line 156). -/
def dupWarning (n : String) : String := "[Vilog] instance \"" ++ n ++ "\" already exists."

/-- Embedding of the registry-relevant part of the `Vilog` constructor
(src/index.js lines 150-209): compute the logger name (auto-generated from
`logIdx` when the `name` option is absent or empty), return the existing
instance with a `console.warn` if the name is already registered — before
any other side effect — and otherwise register a fresh instance.  Identity
of the returned callable instance is modeled by the allocated `ℕ` id.  The
level compilation, option handling and `timer.updateTimer()` of the fresh
path touch no registry state and are omitted here. -/
def construct (reg : Registry) (nameOpt : Option String) : Registry × ℕ :=
  let hasName := match nameOpt with | some s => s != "" | none => false
  let loggerName := if hasName then nameOpt.getD "" else "log" ++ toString reg.logIdx
  let reg := if hasName then reg else { reg with logIdx := reg.logIdx + 1 }
  match lookupInst reg.instances loggerName with
  | some id => ({ reg with warnings := reg.warnings ++ [dupWarning loggerName] }, id)
  | none =>
    ({ reg with
        instances := reg.instances ++ [(loggerName, reg.nextId)],
        nextId := reg.nextId + 1 }, reg.nextId)

/-! ## Dynamic token resolution: src/index.js lines 465-468 -/

/-- Lookup of a token function, `tokens[name]` over `this._tokensFn`. -/
def lookupTokenFn (tokensFn : List (String × (JsValue → JsValue))) (k : String) :
    Option (JsValue → JsValue) :=
  (tokensFn.find? (fun p => p.1 = k)).map (·.2)

/-- Embedding of the dynamic-token resolution loop of `_log`
(src/index.js lines 465-468): `for (let name in tokens)
values[name] = tokens[name]()`.  Each source function is invoked with NO
argument — a JS function parameter therefore receives `undefined` — and its
return value overwrites the default value for that key. -/
def resolveDynamicTokens (tokensFn : List (String × (JsValue → JsValue)))
    (values : String → JsValue) : String → JsValue :=
  fun k =>
    match lookupTokenFn tokensFn k with
    | some f => f JsValue.undef
    | none => values k

/-- Modeled from the spec: the resolution rule as the specification words
it — "passing each function the previous/default value for that key as its
single argument".  Stated only to be compared against
`resolveDynamicTokens`, the embedding of the source. -/
def resolveDynamicTokensSpec (tokensFn : List (String × (JsValue → JsValue)))
    (values : String → JsValue) : String → JsValue :=
  fun k =>
    match lookupTokenFn tokensFn k with
    | some f => f (values k)
    | none => values k

/-- Helper: a fresh name appended to the registry is found by `lookupInst`. -/
theorem lookupInst_append_self (l : List (String × ℕ)) (n : String) (v : ℕ)
    (h : lookupInst l n = none) : lookupInst (l ++ [(n, v)]) n = some v := by
  unfold lookupInst at h ⊢
  rw [List.find?_append]
  have hf : l.find? (fun p => p.1 = n) = none := by
    rcases hx : l.find? (fun p => p.1 = n) with _ | p
    · exact hx
    · rw [hx] at h
      simp at h
  rw [hf, List.find?_cons_of_pos _ (by simp)]
  rfl

/-- C4: constructing a second logger with an already-registered namespace
`n` returns the existing instance (the same allocated identity), registers
nothing new, allocates nothing, and emits the duplicate-construction
warning. -/
theorem C4_duplicate_namespace_returns_existing (reg : Registry) (n : String)
    (hn : n ≠ "") :
    (construct (construct reg (some n)).1 (some n)).2 = (construct reg (some n)).2 ∧
    (construct (construct reg (some n)).1 (some n)).1.instances
      = (construct reg (some n)).1.instances ∧
    (construct (construct reg (some n)).1 (some n)).1.nextId
      = (construct reg (some n)).1.nextId ∧
    (construct (construct reg (some n)).1 (some n)).1.logIdx
      = (construct reg (some n)).1.logIdx ∧
    (construct (construct reg (some n)).1 (some n)).1.warnings
      = (construct reg (some n)).1.warnings ++ [dupWarning n] := by
  have hb : (n != "") = true := by simpa using hn
  rcases heq : lookupInst reg.instances n with _ | id
  · have h2 := lookupInst_append_self reg.instances n reg.nextId heq
    simp [construct, hb, heq, h2]
  · simp [construct, hb, heq]

/-- Witness for C4 at a concrete registry and namespace. -/
theorem C4_duplicate_namespace_returns_existing_witness :
    "foo:bar" ≠ "" ∧
    (construct (construct ⟨[], 0, 1, []⟩ (some "foo:bar")).1 (some "foo:bar")).2
      = (construct ⟨[], 0, 1, []⟩ (some "foo:bar")).2 ∧
    (construct (construct ⟨[], 0, 1, []⟩ (some "foo:bar")).1 (some "foo:bar")).1.warnings
      = (construct ⟨[], 0, 1, []⟩ (some "foo:bar")).1.warnings ++ [dupWarning "foo:bar"] :=
  ⟨by decide,
   (C4_duplicate_namespace_returns_existing ⟨[], 0, 1, []⟩ "foo:bar" (by decide)).1,
   (C4_duplicate_namespace_returns_existing ⟨[], 0, 1, []⟩ "foo:bar" (by decide)).2.2.2.2⟩

/-- C5 counterexample: the claim predicts that a dynamic token's source
function receives the previous/default value for its key — here the
identity function over a previous value `"x"` would resolve to `"x"` — but
the source invokes the function with no argument, so the parameter receives
`undefined` and the resolved value is `undefined ≠ "x"`. -/
theorem C5_token_fn_not_passed_previous_value :
    resolveDynamicTokens [("duration", fun v => v)] (fun _ => JsValue.str "x") "duration"
      = JsValue.undef ∧
    resolveDynamicTokensSpec [("duration", fun v => v)] (fun _ => JsValue.str "x") "duration"
      = JsValue.str "x" ∧
    JsValue.undef ≠ JsValue.str "x" :=
  ⟨rfl, rfl, by decide⟩

/-- C5 amended: on every emitting log call each dynamic token's source
function is invoked with no arguments (its parameter receives `undefined`),
and the function's return value becomes the token's value used for
rendering; keys without a token function keep their previous/default
value. -/
theorem C5_token_resolution_amended
    (tokensFn : List (String × (JsValue → JsValue))) (values : String → JsValue)
    (k : String) :
    (∀ f, lookupTokenFn tokensFn k = some f →
        resolveDynamicTokens tokensFn values k = f JsValue.undef) ∧
    (lookupTokenFn tokensFn k = none →
        resolveDynamicTokens tokensFn values k = values k) := by
  constructor
  · intro f hf
    simp [resolveDynamicTokens, hf]
  · intro hf
    simp [resolveDynamicTokens, hf]

/-- Witness for the amended C5 at a concrete token table. -/
theorem C5_token_resolution_amended_witness :
    lookupTokenFn [("duration", fun _ => JsValue.str "42ms")] "duration"
      = some (fun _ => JsValue.str "42ms") ∧
    resolveDynamicTokens [("duration", fun _ => JsValue.str "42ms")]
      (fun _ => JsValue.undef) "duration" = JsValue.str "42ms" :=
  ⟨rfl,
   (C5_token_resolution_amended [("duration", fun _ => JsValue.str "42ms")]
      (fun _ => JsValue.undef) "duration").1 (fun _ => JsValue.str "42ms") rfl⟩

/-- C10: `Vilog.peek` throws its `TypeError` exactly when the `name`
argument is missing, `null`, a non-string value, or the empty string; for
every non-empty string it returns the newline-joined outputs of the
exactly-matching buffered entries (the empty string when there are none)
and, being a pure read of the buffer, modifies nothing. -/
theorem C10_peek_throws_or_reads (buf : List Entry) :
    peek buf JsValue.undef = .error peekErr ∧
    peek buf JsValue.nullv = .error peekErr ∧
    (∀ q, peek buf (JsValue.num q) = .error peekErr) ∧
    (∀ b, peek buf (JsValue.bool b) = .error peekErr) ∧
    peek buf (JsValue.str "") = .error peekErr ∧
    (∀ s, s ≠ "" → peek buf (JsValue.str s) =
        .ok (String.intercalate "\n"
          ((buf.filter (fun e => e.name = s)).map Entry.output))) := by
  refine ⟨rfl, rfl, fun _ => rfl, fun _ => rfl, by simp [peek], fun s hs => ?_⟩
  simp only [peek]
  rw [if_neg hs]
  rcases hb : buf.isEmpty with _ | _
  · rcases hi : (buf.filter (fun e => e.name = s)).isEmpty with _ | _
    · simp [hb, hi]
    · rw [List.isEmpty_iff] at hi
      simp [hb, hi]
      rfl
  · rw [List.isEmpty_iff] at hb
    simp [hb]
    rfl

/-- Witness for C10 at a concrete buffer and name. -/
theorem C10_peek_throws_or_reads_witness :
    "a" ≠ "" ∧
    peek [⟨0, 0, "a", "default", "hello"⟩] (JsValue.str "a")
      = .ok (String.intercalate "\n"
          ((([⟨0, 0, "a", "default", "hello"⟩] : List Entry).filter
              (fun e => e.name = "a")).map Entry.output)) :=
  ⟨by decide,
   (C10_peek_throws_or_reads [⟨0, 0, "a", "default", "hello"⟩]).2.2.2.2.2 "a" (by decide)⟩

/-- C9: a log call suppressed by the disabled-namespace check restores
`timer.lastTime` to its value from before the call — the measurement taken
at call entry (which advanced the timer) is discarded — and produces no
output and no buffer change, so the duration measured by the next emitted
call is unchanged. -/
theorem C9_suppressed_call_restores_timer (inst : Inst) (level : String)
    (msg : Option String) (sys : LogSys)
    (h : isDisabled sys.disabled inst.name = true) :
    (logStep inst level msg sys).1.lastTime = sys.lastTime ∧
    (logStep inst level msg sys).2 = none ∧
    (logStep inst level msg sys).1.buffer = sys.buffer ∧
    (logStep inst level msg sys).1.sink = sys.sink := by
  simp [logStep, timerMeasure, nowTick, h]

/-- Witness for C9 at a concrete globally-disabled system. -/
theorem C9_suppressed_call_restores_timer_witness :
    isDisabled ["*"] "a" = true ∧
    (logStep ⟨"a", "a", false, fun m _ => m⟩ "default" (some "x")
        ⟨["*"], [], some 10000, 0, "time", 5, 0, [], fun _ => 7, 0⟩).1.lastTime = 5 ∧
    (logStep ⟨"a", "a", false, fun m _ => m⟩ "default" (some "x")
        ⟨["*"], [], some 10000, 0, "time", 5, 0, [], fun _ => 7, 0⟩).2 = none :=
  ⟨by decide,
   (C9_suppressed_call_restores_timer ⟨"a", "a", false, fun m _ => m⟩ "default" (some "x")
      ⟨["*"], [], some 10000, 0, "time", 5, 0, [], fun _ => 7, 0⟩ (by decide)).1,
   (C9_suppressed_call_restores_timer ⟨"a", "a", false, fun m _ => m⟩ "default" (some "x")
      ⟨["*"], [], some 10000, 0, "time", 5, 0, [], fun _ => 7, 0⟩ (by decide)).2.1⟩

/-- C1 (code bug): `isDisabled` only honors the global `'*'` rule — the
pattern loop is commented out behind `// TODO: enable when patterns are
supported` — so a namespace matching an exact-name pattern (`"foo:b"` with
`"foo:b"` in the disabled set) or a trailing-`*` prefix pattern (`"b:x"`
with `"b:*"` in the set) is NOT reported disabled, and the log call emits
its line to the sink and returns it, while the claim (and the repository's
own tests `disable exact namespace` and `disable("b:*") disables namespace
by prefix`) require `undefined` and no output. -/
theorem C1_disabled_pattern_ignored_eval :
    isDisabled ["foo:b"] "foo:b" = false ∧
    matchPattern "foo:b" "foo:b" = true ∧
    isDisabled ["b:*"] "b:x" = false ∧
    matchPattern "b:*" "b:x" = true ∧
    (logStep ⟨"foo:b", "foo:b", false, fun m _ => m⟩ "default" (some "drop")
        ⟨["foo:b"], [], some 10000, 0, "time", 0, 0, [], fun _ => 0, 0⟩).2 = some "drop" ∧
    (logStep ⟨"foo:b", "foo:b", false, fun m _ => m⟩ "default" (some "drop")
        ⟨["foo:b"], [], some 10000, 0, "time", 0, 0, [], fun _ => 0, 0⟩).1.sink = ["drop"] := by
  refine ⟨by decide, by decide, by decide, by decide, ?_, ?_⟩
  · simp [logStep, timerMeasure, nowTick, isDisabled, updateTimer]
  · simp [logStep, timerMeasure, nowTick, isDisabled, updateTimer]

/-- Helper: the flush-order selection only permutes the buffer. -/
theorem flushSorted_perm (buffer : List Entry) (orderBy : String) :
    (flushSorted buffer orderBy).Perm buffer := by
  unfold flushSorted
  split_ifs
  · exact List.mergeSort_perm _ _
  · exact List.mergeSort_perm _ _
  · exact List.Perm.refl _

/-- Helper: `flush` never touches the capacity, sequence counter or clock,
and leaves the buffer empty (or already empty). -/
theorem flush_fields (sys : LogSys) (orderBy : String) (colored ret : Bool) :
    (flush sys orderBy colored ret).1.maxBuffer = sys.maxBuffer ∧
    (flush sys orderBy colored ret).1.seqBuffer = sys.seqBuffer ∧
    (flush sys orderBy colored ret).1.tick = sys.tick ∧
    (flush sys orderBy colored ret).1.clock = sys.clock ∧
    (flush sys orderBy colored ret).1.flushOrderBy = sys.flushOrderBy ∧
    (flush sys orderBy colored ret).1.buffer.length ≤ sys.buffer.length := by
  unfold flush
  by_cases hemp : sys.buffer.isEmpty <;> cases ret <;> simp [hemp]

/-- Helper: `bufferAppend` preserves the configured capacity. -/
theorem bufferAppend_maxBuffer (sys : LogSys) (n l o : String) :
    (bufferAppend sys n l o).maxBuffer = sys.maxBuffer := by
  unfold bufferAppend
  rcases hmb : sys.maxBuffer with _ | cap
  · simp [nowTick, hmb]
  · by_cases hov : sys.buffer.length + 1 > cap
    · simp [hov, nowTick, (flush_fields sys sys.flushOrderBy false false).1, hmb]
    · simp [hov, nowTick, hmb]

/-- Helper: one silent append keeps the buffer within a positive capacity. -/
theorem bufferAppend_length (sys : LogSys) (n l o : String) (cap : ℕ)
    (hcap : sys.maxBuffer = some cap) (h1 : 1 ≤ cap) (_hlen : sys.buffer.length ≤ cap) :
    (bufferAppend sys n l o).buffer.length ≤ cap := by
  unfold bufferAppend
  rw [hcap]
  by_cases hov : sys.buffer.length + 1 > cap
  · have h0 : (flush sys sys.flushOrderBy false false).1.buffer.length = 0 := by
      unfold flush
      by_cases hemp : sys.buffer.isEmpty
      · rw [List.isEmpty_iff] at hemp
        simp [hemp]
      · simp [hemp]
    simp [hov, nowTick, h0, h1]
  · simp [hov, nowTick]
    omega

/-- C2 counterexample: `maxBuffer` is only validated to be a finite number
(or `Infinity`), so `maxBuffer = 0` is accepted, and then a single silent
append leaves one entry in the buffer — more than the cap — because the
automatic flush runs before the push and the push itself is unconditional.
The claim as stated (every finite cap bounds the buffer) is false at cap 0. -/
theorem C2_maxBuffer_zero_counterexample :
    ¬ ((bufferAppend ⟨[], [], some 0, 0, "time", 0, 0, [], fun _ => 0, 0⟩
        "a" "default" "x").buffer.length ≤ 0) := by
  simp [bufferAppend, flush, nowTick]

/-- Helper: any sequence of silent appends keeps the buffer within a
positive capacity. -/
theorem bufferAppend_foldl_inv (cap : ℕ) (h1 : 1 ≤ cap) :
    ∀ (ops : List (String × String × String)) (s : LogSys),
      s.maxBuffer = some cap → s.buffer.length ≤ cap →
      (ops.foldl (fun s p => bufferAppend s p.1 p.2.1 p.2.2) s).buffer.length ≤ cap := by
  intro ops
  induction ops with
  | nil => intro s _ h3; simpa using h3
  | cons p rest ih =>
      intro s h2 h3
      simp only [List.foldl_cons]
      exact ih _ (by rw [bufferAppend_maxBuffer, h2]) (bufferAppend_length _ _ _ _ cap h2 h1 h3)

/-- C2 amended: for every positive finite capacity, the silent-mode buffer
holds at most `maxBuffer` entries after any sequence of appends; an append
that would exceed the cap first auto-flushes — the previous entries go to
the sink as one joined line (a permutation of them under the configured
ordering), the buffer is emptied — and then the new entry is appended, so
nothing is silently dropped.  An in-capacity append just pushes. -/
theorem C2_buffer_capacity_amended (sys : LogSys) (n l o : String) (cap : ℕ)
    (hcap : sys.maxBuffer = some cap) (h1 : 1 ≤ cap) (hlen : sys.buffer.length ≤ cap) :
    (bufferAppend sys n l o).buffer.length ≤ cap ∧
    (sys.buffer.length + 1 > cap →
      ∃ lst : List Entry, lst.Perm sys.buffer ∧
        (bufferAppend sys n l o).buffer
          = [⟨sys.seqBuffer, sys.clock sys.tick, n, l, o⟩] ∧
        (bufferAppend sys n l o).sink
          = sys.sink ++ [String.intercalate "\n" (lst.map Entry.output)]) ∧
    (¬ sys.buffer.length + 1 > cap →
      (bufferAppend sys n l o).buffer
        = sys.buffer ++ [⟨sys.seqBuffer, sys.clock sys.tick, n, l, o⟩] ∧
      (bufferAppend sys n l o).sink = sys.sink) ∧
    (∀ ops : List (String × String × String),
      (ops.foldl (fun s p => bufferAppend s p.1 p.2.1 p.2.2) (bufferAppend sys n l o)).buffer.length
        ≤ cap) := by
  refine ⟨bufferAppend_length sys n l o cap hcap h1 hlen, ?_, ?_, ?_⟩
  · intro hov
    refine ⟨flushSorted sys.buffer sys.flushOrderBy, flushSorted_perm _ _, ?_, ?_⟩
    · have hne : sys.buffer.isEmpty = false := by
        rcases hb : sys.buffer with _ | _
        · rw [hb] at hov
          simp at hov
          omega
        · simp [hb]
      unfold bufferAppend
      rw [hcap]
      simp only [hov, if_pos, gt_iff_lt]
      unfold flush
      simp [hne, nowTick]
    · have hne : sys.buffer.isEmpty = false := by
        rcases hb : sys.buffer with _ | _
        · rw [hb] at hov
          simp at hov
          omega
        · simp [hb]
      unfold bufferAppend
      rw [hcap]
      simp only [hov, if_pos, gt_iff_lt]
      unfold flush
      simp [hne, nowTick]
  · intro hov
    unfold bufferAppend
    rw [hcap]
    simp [hov, nowTick]
  · intro ops
    exact bufferAppend_foldl_inv cap h1 ops _
      (by rw [bufferAppend_maxBuffer, hcap])
      (bufferAppend_length sys n l o cap hcap h1 hlen)

/-- Witness for the amended C2 at a concrete full buffer with capacity 1. -/
theorem C2_buffer_capacity_amended_witness :
    (⟨[], [⟨0, 0, "a", "default", "one"⟩], some 1, 1, "time", 0, 0, [], fun _ => 0, 0⟩ :
        LogSys).maxBuffer = some 1 ∧
    (bufferAppend
        ⟨[], [⟨0, 0, "a", "default", "one"⟩], some 1, 1, "time", 0, 0, [], fun _ => 0, 0⟩
        "a" "default" "two").buffer.length ≤ 1 :=
  ⟨rfl,
   (C2_buffer_capacity_amended
      ⟨[], [⟨0, 0, "a", "default", "one"⟩], some 1, 1, "time", 0, 0, [], fun _ => 0, 0⟩
      "a" "default" "two" 1 rfl (by decide) (by decide)).1⟩

/-- Helper: the JS comparator-chain value `x || y` is non-positive iff the
first key decides (`x < 0`) or ties and defers (`x = 0` and `y ≤ 0`). -/
theorem jsOr_nonpos_iff (x y : ℚ) : jsOr x y ≤ 0 ↔ x < 0 ∨ (x = 0 ∧ y ≤ 0) := by
  unfold jsOr
  by_cases hx : x = 0
  · simp [hx]
  · rw [if_neg hx]
    constructor
    · intro h
      exact Or.inl (lt_of_le_of_ne h hx)
    · rintro (h | ⟨h0, _⟩)
      · exact le_of_lt h
      · exact absurd h0 hx

/-- Helper: the `localeCompare` model is non-positive iff the first string
is less or equal. -/
theorem lcmp_nonpos_iff (a b : String) : lcmp a b ≤ 0 ↔ a ≤ b := by
  unfold lcmp
  split_ifs with h1 h2
  · exact iff_of_true (by norm_num) (le_of_lt h1)
  · exact iff_of_false (by norm_num) (not_le.mpr h2)
  · exact iff_of_true (le_refl 0) (not_lt.mp h2)

/-- Helper: the `localeCompare` model is negative iff the first string is
strictly less. -/
theorem lcmp_neg_iff (a b : String) : lcmp a b < 0 ↔ a < b := by
  unfold lcmp
  split_ifs with h1 h2
  · exact iff_of_true (by norm_num) h1
  · exact iff_of_false (by norm_num) (asymm h2)
  · exact iff_of_false (lt_irrefl 0) h1

/-- Helper: the `localeCompare` model is zero iff the strings are equal. -/
theorem lcmp_eq_zero_iff (a b : String) : lcmp a b = 0 ↔ a = b := by
  unfold lcmp
  split_ifs with h1 h2
  · exact iff_of_false (by norm_num) (ne_of_lt h1)
  · exact iff_of_false (by norm_num) (Ne.symm (ne_of_lt h2))
  · exact iff_of_true rfl (le_antisymm (not_lt.mp h2) (not_lt.mp h1))

/-- Ascending order claimed for `flush({orderBy:'time'})`: by timestamp,
ties broken by sequence number, then by namespace. -/
def timeOrder (a b : Entry) : Prop :=
  a.t < b.t ∨ (a.t = b.t ∧ (a.seq < b.seq ∨ (a.seq = b.seq ∧ a.name ≤ b.name)))

/-- Ascending order claimed for `flush({orderBy:'name'})`: by namespace,
then timestamp, then sequence number. -/
def nameOrder (a b : Entry) : Prop :=
  a.name < b.name ∨ (a.name = b.name ∧ (a.t < b.t ∨ (a.t = b.t ∧ a.seq ≤ b.seq)))

/-- Helper: the boolean relation derived from the `'time'` comparator is
exactly `timeOrder`. -/
theorem sortLeTime_iff (a b : Entry) : sortLeTime a b = true ↔ timeOrder a b := by
  simp [sortLeTime, cmpByTime, jsOr_nonpos_iff, lcmp_nonpos_iff, sub_neg,
    sub_eq_zero, Nat.cast_lt, Nat.cast_inj, timeOrder]

/-- Helper: the boolean relation derived from the `'name'` comparator is
exactly `nameOrder`. -/
theorem sortLeName_iff (a b : Entry) : sortLeName a b = true ↔ nameOrder a b := by
  simp [sortLeName, cmpByName, jsOr_nonpos_iff, lcmp_nonpos_iff, lcmp_neg_iff,
    lcmp_eq_zero_iff, sub_neg, sub_eq_zero, Nat.cast_lt, Nat.cast_inj, nameOrder]

/-- Helper: transitivity of the `'time'` lexicographic order. -/
theorem timeOrder_trans (a b c : Entry) (h1 : timeOrder a b) (h2 : timeOrder b c) :
    timeOrder a c := by
  unfold timeOrder at h1 h2 ⊢
  rcases h1 with h1 | ⟨e1, h1⟩
  · rcases h2 with h2 | ⟨e2, _⟩
    · exact Or.inl (lt_trans h1 h2)
    · exact Or.inl (e2 ▸ h1)
  · rcases h2 with h2 | ⟨e2, h2⟩
    · exact Or.inl (by rw [e1]; exact h2)
    · refine Or.inr ⟨e1.trans e2, ?_⟩
      rcases h1 with s1 | ⟨q1, n1⟩
      · rcases h2 with s2 | ⟨q2, _⟩
        · exact Or.inl (lt_trans s1 s2)
        · exact Or.inl (q2 ▸ s1)
      · rcases h2 with s2 | ⟨q2, n2⟩
        · exact Or.inl (by rw [q1]; exact s2)
        · exact Or.inr ⟨q1.trans q2, le_trans n1 n2⟩

/-- Helper: totality of the `'time'` lexicographic order. -/
theorem timeOrder_total (a b : Entry) : timeOrder a b ∨ timeOrder b a := by
  unfold timeOrder
  rcases lt_trichotomy a.t b.t with h | h | h
  · exact Or.inl (Or.inl h)
  · rcases lt_trichotomy a.seq b.seq with h2 | h2 | h2
    · exact Or.inl (Or.inr ⟨h, Or.inl h2⟩)
    · rcases le_total a.name b.name with h3 | h3
      · exact Or.inl (Or.inr ⟨h, Or.inr ⟨h2, h3⟩⟩)
      · exact Or.inr (Or.inr ⟨h.symm, Or.inr ⟨h2.symm, h3⟩⟩)
    · exact Or.inr (Or.inr ⟨h.symm, Or.inl h2⟩)
  · exact Or.inr (Or.inl h)

/-- Helper: transitivity of the `'name'` lexicographic order. -/
theorem nameOrder_trans (a b c : Entry) (h1 : nameOrder a b) (h2 : nameOrder b c) :
    nameOrder a c := by
  unfold nameOrder at h1 h2 ⊢
  rcases h1 with h1 | ⟨e1, h1⟩
  · rcases h2 with h2 | ⟨e2, _⟩
    · exact Or.inl (lt_trans h1 h2)
    · exact Or.inl (e2 ▸ h1)
  · rcases h2 with h2 | ⟨e2, h2⟩
    · exact Or.inl (by rw [e1]; exact h2)
    · refine Or.inr ⟨e1.trans e2, ?_⟩
      rcases h1 with s1 | ⟨q1, n1⟩
      · rcases h2 with s2 | ⟨q2, _⟩
        · exact Or.inl (lt_trans s1 s2)
        · exact Or.inl (q2 ▸ s1)
      · rcases h2 with s2 | ⟨q2, n2⟩
        · exact Or.inl (by rw [q1]; exact s2)
        · exact Or.inr ⟨q1.trans q2, le_trans n1 n2⟩

/-- Helper: totality of the `'name'` lexicographic order. -/
theorem nameOrder_total (a b : Entry) : nameOrder a b ∨ nameOrder b a := by
  unfold nameOrder
  rcases lt_trichotomy a.name b.name with h | h | h
  · exact Or.inl (Or.inl h)
  · rcases lt_trichotomy a.t b.t with h2 | h2 | h2
    · exact Or.inl (Or.inr ⟨h, Or.inl h2⟩)
    · rcases le_total a.seq b.seq with h3 | h3
      · exact Or.inl (Or.inr ⟨h, Or.inr ⟨h2, h3⟩⟩)
      · exact Or.inr (Or.inr ⟨h.symm, Or.inr ⟨h2.symm, h3⟩⟩)
    · exact Or.inr (Or.inr ⟨h.symm, Or.inl h2⟩)
  · exact Or.inr (Or.inl h)

/-- C8: `Vilog.flush` with `orderBy 'time'` returns the buffered outputs
joined with a single newline in an order that is a permutation of the
buffer sorted ascending by `(timestamp, sequence, namespace)`; with
`orderBy 'name'` sorted by `(namespace, timestamp, sequence)`; both clear
the buffer; on an empty buffer `flush` returns the empty string and has no
side effect at all. -/
theorem C8_flush_ordering_and_clear (sys : LogSys) :
    (∃ l : List Entry, l.Perm sys.buffer ∧ l.Pairwise timeOrder ∧
      (flush sys "time" true true).1.buffer = [] ∧
      (flush sys "time" true true).1.sink = sys.sink ∧
      (flush sys "time" true true).2 = String.intercalate "\n" (l.map Entry.output)) ∧
    (∃ l : List Entry, l.Perm sys.buffer ∧ l.Pairwise nameOrder ∧
      (flush sys "name" true true).1.buffer = [] ∧
      (flush sys "name" true true).1.sink = sys.sink ∧
      (flush sys "name" true true).2 = String.intercalate "\n" (l.map Entry.output)) ∧
    (sys.buffer = [] → ∀ orderBy colored ret, flush sys orderBy colored ret = (sys, "")) := by
  refine ⟨?_, ?_, ?_⟩
  · by_cases hemp : sys.buffer = []
    · refine ⟨[], by simp [hemp], List.Pairwise.nil, by simp [flush, hemp],
        by simp [flush, hemp], ?_⟩
      simp [flush, hemp]
      rfl
    · have hne : sys.buffer.isEmpty = false := by
        simpa [List.isEmpty_iff] using hemp
      have hsort : flushSorted sys.buffer "time" = sys.buffer.mergeSort sortLeTime := by
        unfold flushSorted
        rw [if_neg (by decide), if_pos rfl]
      have htr : ∀ (a b c : Entry), sortLeTime a b → sortLeTime b c → sortLeTime a c :=
        fun a b c hab hbc => (sortLeTime_iff a c).mpr
          (timeOrder_trans a b c ((sortLeTime_iff a b).mp hab) ((sortLeTime_iff b c).mp hbc))
      have hto : ∀ (a b : Entry), sortLeTime a b || sortLeTime b a := by
        intro a b
        rcases timeOrder_total a b with h | h
        · simp [(sortLeTime_iff a b).mpr h]
        · simp [(sortLeTime_iff b a).mpr h]
      refine ⟨sys.buffer.mergeSort sortLeTime, List.mergeSort_perm _ _, ?_, ?_, ?_, ?_⟩
      · exact (List.sorted_mergeSort htr hto sys.buffer).imp
          (fun hx => (sortLeTime_iff _ _).mp hx)
      · unfold flush
        simp [hne]
      · unfold flush
        simp [hne]
      · unfold flush
        simp [hne, hsort]
  · by_cases hemp : sys.buffer = []
    · refine ⟨[], by simp [hemp], List.Pairwise.nil, by simp [flush, hemp],
        by simp [flush, hemp], ?_⟩
      simp [flush, hemp]
      rfl
    · have hne : sys.buffer.isEmpty = false := by
        simpa [List.isEmpty_iff] using hemp
      have hsort : flushSorted sys.buffer "name" = sys.buffer.mergeSort sortLeName := by
        unfold flushSorted
        rw [if_pos rfl]
      have htr : ∀ (a b c : Entry), sortLeName a b → sortLeName b c → sortLeName a c :=
        fun a b c hab hbc => (sortLeName_iff a c).mpr
          (nameOrder_trans a b c ((sortLeName_iff a b).mp hab) ((sortLeName_iff b c).mp hbc))
      have hto : ∀ (a b : Entry), sortLeName a b || sortLeName b a := by
        intro a b
        rcases nameOrder_total a b with h | h
        · simp [(sortLeName_iff a b).mpr h]
        · simp [(sortLeName_iff b a).mpr h]
      refine ⟨sys.buffer.mergeSort sortLeName, List.mergeSort_perm _ _, ?_, ?_, ?_, ?_⟩
      · exact (List.sorted_mergeSort htr hto sys.buffer).imp
          (fun hx => (sortLeName_iff _ _).mp hx)
      · unfold flush
        simp [hne]
      · unfold flush
        simp [hne]
      · unfold flush
        simp [hne, hsort]
  · intro hemp orderBy colored ret
    unfold flush
    simp [hemp]

/-- Witness for C8 at a concrete empty-buffer system. -/
theorem C8_flush_ordering_and_clear_witness :
    (⟨[], [], some 10000, 0, "time", 0, 0, [], fun _ => 0, 0⟩ : LogSys).buffer = [] ∧
    flush ⟨[], [], some 10000, 0, "time", 0, 0, [], fun _ => 0, 0⟩ "time" true true
      = (⟨[], [], some 10000, 0, "time", 0, 0, [], fun _ => 0, 0⟩, "") :=
  ⟨rfl,
   (C8_flush_ordering_and_clear
      ⟨[], [], some 10000, 0, "time", 0, 0, [], fun _ => 0, 0⟩).2.2 rfl "time" true true⟩

/-! ## Date formatter: src/formatDate.js

Strings are handled at the character-list level here because the source
works with `indexOf`/`slice` index arithmetic.  `\x7b` and `\x7d` denote the
brace characters. -/

/-- Boolean prefix test on character lists (the building block of the
`indexOf` model). -/
def isPrefixOfC : List Char → List Char → Bool
  | [], _ => true
  | _ :: _, [] => false
  | a :: as, b :: bs => a == b && isPrefixOfC as bs

/-- First index of an occurrence of `pat` in `l`, the model of JS
`String.prototype.indexOf(pat)`; `none` models the JS result `-1`. -/
def findSub : List Char → List Char → Option ℕ
  | [], pat => if isPrefixOfC pat [] then some 0 else none
  | c :: t, pat =>
    if isPrefixOfC pat (c :: t) then some 0 else (findSub t pat).map (· + 1)

/-- Model of JS `indexOf(pat, pos)`: first occurrence at or after `pos`,
as an absolute index. -/
def jsIndexOfFrom (l pat : List Char) (pos : ℕ) : Option ℕ :=
  (findSub (l.drop pos) pat).map (· + pos)

/-- Model of JS `String.prototype.replace(pat, rep)` with a string pattern:
only the first occurrence is replaced. -/
def replaceFirst (l pat rep : List Char) : List Char :=
  match findSub l pat with
  | none => l
  | some i => l.take i ++ rep ++ l.drop (i + pat.length)

/-- The date value handed to `formatDate` (an external `Date` collaborator):
the results of the getters used in src/formatDate.js lines 43-51.  `month`
is the 0-based `getMonth()` result; `time` is `getTime()` in ms. -/
structure JsDate where
  fullYear : ℕ
  month : ℕ
  day : ℕ
  hours : ℕ
  minutes : ℕ
  seconds : ℕ
  ms : ℕ
  time : ℤ
deriving Repr

/-- Two-digit zero padding (src/formatDate.js line 53). -/
def pad2 (n : ℕ) : String := if n < 10 then "0" ++ toString n else toString n

/-- Token substitution inside one date-format substring
(src/formatDate.js lines 57-67): each named token is replaced once, in the
source's order (`YYYY`, `YY`, `MM`, `DD`, `HH`, `mm`, `sss`, `ss`, `ts`).
`pad3` is the same three-digit padding the duration formatter uses
(src/formatDate.js line 54). -/
def renderSpec (d : JsDate) (s : List Char) : List Char :=
  let Y := (toString d.fullYear).data
  let y := Y.drop (Y.length - 2)
  let ts := (toString (Int.fdiv d.time 1000)).data
  let s := replaceFirst s "YYYY".data Y
  let s := replaceFirst s "YY".data y
  let s := replaceFirst s "MM".data (pad2 (d.month + 1)).data
  let s := replaceFirst s "DD".data (pad2 d.day).data
  let s := replaceFirst s "HH".data (pad2 d.hours).data
  let s := replaceFirst s "mm".data (pad2 d.minutes).data
  let s := replaceFirst s "sss".data (pad3 d.ms).data
  let s := replaceFirst s "ss".data (pad2 d.seconds).data
  replaceFirst s "ts".data ts

/-- The scanning loop of `formatDate` (src/formatDate.js lines 73-99).
`start?` is the current `%d{` position (the head of the first iteration
comes from the `'%d'` search of line 30), `pos` the copy cursor, `out` the
accumulator.  Each iteration advances `pos` by at least 3, so the initial
fuel `pattern.length + 1` is never exhausted; the fuel-0 fallback returns
the same "copy the tail" result as the natural loop exit of line 99. -/
def fdLoop (d : JsDate) : ℕ → List Char → Option ℕ → ℕ → List Char → List Char
  | 0, pattern, _, pos, out => out ++ pattern.drop pos
  | _ + 1, pattern, none, pos, out => out ++ pattern.drop pos
  | fuel + 1, pattern, some start, pos, out =>
    let out := out ++ (pattern.drop pos).take (start - pos)
    let fmtStart := start + 3
    let endIdx := jsIndexOfFrom pattern ['\x7d'] fmtStart
    let nextOpen := jsIndexOfFrom pattern ['%', 'd', '\x7b'] fmtStart
    -- `end === -1 || (nextOpen !== -1 && end > nextOpen)` (line 82)
    let malformed :=
      match endIdx, nextOpen with
      | none, _ => true
      | some e, some no => e > no
      | some _, none => false
    if malformed then
      match nextOpen with
      | none => out ++ pattern.drop start
      | some no =>
        fdLoop d fuel pattern (jsIndexOfFrom pattern ['%', 'd', '\x7b'] no) no
          (out ++ (pattern.drop start).take (no - start))
    else
      match endIdx with
      | some e =>
        fdLoop d fuel pattern (jsIndexOfFrom pattern ['%', 'd', '\x7b'] (e + 1)) (e + 1)
          (out ++ renderSpec d ((pattern.drop fmtStart).take (e - fmtStart)))
      | none => out

/-- Embedding of `formatDate(pattern, {date})` (src/formatDate.js
lines 27-100) at the character-list level: empty input yields `''`; with no
`'%d'` marker the pattern is returned unchanged; a bare `%d` (no brace at
`start + 2`) is first rewritten to the ISO-8601 spec; then the scanning
loop renders every well-formed `%d{...}` and leaves malformed occurrences
verbatim.  The runtime calls `formatDate` without a styler, so the
`styler` option is not modeled. -/
def formatDateList (pattern : List Char) (d : JsDate) : List Char :=
  if pattern.length = 0 then []
  else
    match findSub pattern ['%', 'd'] with
    | none => pattern
    | some start =>
      let pattern :=
        if pattern.get? (start + 2) = some '\x7b' then pattern
        else replaceFirst pattern "%d".data "%d\x7bYYYY-MM-DDTHH:mm:ss.sssZ\x7d".data
      fdLoop d (pattern.length + 1) pattern (some start) 0 []

/-- String-level wrapper of the `formatDate` embedding. -/
def formatDate (pattern : String) (d : JsDate) : String :=
  ⟨formatDateList pattern.data d⟩

/-- Helper: appending the text `%d` behind a prefix free of `%d` puts its
first occurrence exactly at the prefix boundary (a straddling occurrence is
impossible because the marker starts with `%`, not `d`). -/
theorem findSub_pd_append (P rest : List Char) (h : findSub P ['%', 'd'] = none) :
    findSub (P ++ '%' :: 'd' :: rest) ['%', 'd'] = some P.length := by
  induction P with
  | nil => simp [findSub, isPrefixOfC]
  | cons c P ih =>
      rw [findSub] at h
      by_cases hp : isPrefixOfC ['%', 'd'] (c :: P) = true
      · rw [if_pos hp] at h
        exact absurd h (by simp)
      · rw [if_neg hp] at h
        have hP : findSub P ['%', 'd'] = none := by
          rcases hx : findSub P ['%', 'd'] with _ | k
          · rfl
          · rw [hx] at h
            simp at h
        have hpf : isPrefixOfC ['%', 'd'] (c :: (P ++ '%' :: 'd' :: rest)) = false := by
          cases P with
          | nil =>
              have hne : ('d' == '%') = false := by decide
              simp [isPrefixOfC, hne]
          | cons p P' =>
              simp only [isPrefixOfC, List.cons_append] at hp ⊢
              simpa using hp
        rw [List.cons_append, findSub, hpf]
        simp [ih hP]

/-- Helper: an occurrence of the longer marker `%d{` is in particular an
occurrence of `%d`. -/
theorem isPrefixOfC_pdl_imp (t : List Char)
    (h : isPrefixOfC ['%', 'd', '\x7b'] t = true) : isPrefixOfC ['%', 'd'] t = true := by
  match t with
  | [] => simp [isPrefixOfC] at h
  | [a] => simp [isPrefixOfC] at h
  | a :: b :: t' =>
      simp only [isPrefixOfC, Bool.and_eq_true] at h ⊢
      exact ⟨h.1, h.2.1, trivial⟩

/-- Helper: a string without `%d` also has no `%d{`. -/
theorem findSub_pdl_none (S : List Char) (h : findSub S ['%', 'd'] = none) :
    findSub S ['%', 'd', '\x7b'] = none := by
  induction S with
  | nil => simp [findSub, isPrefixOfC]
  | cons c t ih =>
      rw [findSub] at h
      by_cases hp : isPrefixOfC ['%', 'd'] (c :: t) = true
      · rw [if_pos hp] at h
        exact absurd h (by simp)
      · rw [if_neg hp] at h
        have ht : findSub t ['%', 'd'] = none := by
          rcases hx : findSub t ['%', 'd'] with _ | k
          · rfl
          · rw [hx] at h
            simp at h
        rw [findSub, if_neg ?_, ih ht]
        · rfl
        · intro hc
          exact hp (isPrefixOfC_pdl_imp _ hc)

/-- C7: a `%d\x7b` occurrence with no matching `\x7d` before the next
`%d\x7b` (or before the end of the string) is left verbatim in the output
of `formatDate` — the first conjunct covers every pattern of the shape
`pre ++ "%d\x7b" ++ suf` whose prefix holds no earlier `%d` marker and
whose tail holds neither a closing brace nor a further marker, for every
date; being a total Lean function, the embedding also shows the scan never
throws.  The second conjunct shows formatting continuing from the next
recognized marker past a malformed occurrence: in
`"a %d\x7bbad %d\x7bYYYY\x7d b"` the malformed `%d\x7bbad ` stays verbatim
while the following `%d\x7bYYYY\x7d` renders the year. -/
theorem C7_malformed_date_pattern_verbatim :
    (∀ (pre suf : String) (d : JsDate),
      findSub pre.data ['%', 'd'] = none →
      findSub suf.data ['\x7d'] = none →
      findSub suf.data ['%', 'd'] = none →
      formatDate (pre ++ "%d\x7b" ++ suf) d = pre ++ "%d\x7b" ++ suf) ∧
    formatDate "a %d\x7bbad %d\x7bYYYY\x7d b" ⟨2025, 11, 31, 9, 1, 5, 75, 1767168065075⟩
      = "a %d\x7bbad 2025 b" := by
  constructor
  · intro pre suf d h1 h2 h3
    have hdata : (pre ++ "%d\x7b" ++ suf).data
        = pre.data ++ '%' :: 'd' :: '\x7b' :: suf.data := by
      simp [String.data_append]
    have hlist : formatDateList (pre.data ++ '%' :: 'd' :: '\x7b' :: suf.data) d
        = pre.data ++ '%' :: 'd' :: '\x7b' :: suf.data := by
      have hfind := findSub_pd_append pre.data ('\x7b' :: suf.data) h1
      have hlen : (pre.data ++ '%' :: 'd' :: '\x7b' :: suf.data).length ≠ 0 := by simp
      have hget : (pre.data ++ '%' :: 'd' :: '\x7b' :: suf.data).get? (pre.data.length + 2)
          = some '\x7b' := by
        rw [List.get?_eq_getElem?, List.getElem?_append_right (by omega)]
        simp
      have hdrop3 : (pre.data ++ '%' :: 'd' :: '\x7b' :: suf.data).drop (pre.data.length + 3)
          = suf.data := by
        rw [← List.drop_drop, List.drop_left]
        rfl
      have hend : jsIndexOfFrom (pre.data ++ '%' :: 'd' :: '\x7b' :: suf.data) ['\x7d']
          (pre.data.length + 3) = none := by
        unfold jsIndexOfFrom
        rw [hdrop3, h2]
        rfl
      have hnext : jsIndexOfFrom (pre.data ++ '%' :: 'd' :: '\x7b' :: suf.data)
          ['%', 'd', '\x7b'] (pre.data.length + 3) = none := by
        unfold jsIndexOfFrom
        rw [hdrop3, findSub_pdl_none suf.data h3]
        rfl
      unfold formatDateList
      rw [if_neg hlen, hfind]
      simp only [hget, if_pos, fdLoop, hend, hnext]
      rw [List.drop_zero, Nat.sub_zero, List.take_left, List.drop_left]
      rfl
    show String.mk (formatDateList (pre ++ "%d\x7b" ++ suf).data d) = pre ++ "%d\x7b" ++ suf
    rw [hdata, hlist, ← hdata]
  · decide

/-- Witness for C7 at the pattern named by the specification,
`"Date %d\x7bYYYY-MM-DD HH:mm:ss.sss malformed"`. -/
theorem C7_malformed_date_pattern_verbatim_witness :
    findSub "Date ".data ['%', 'd'] = none ∧
    findSub "YYYY-MM-DD HH:mm:ss.sss malformed".data ['\x7d'] = none ∧
    findSub "YYYY-MM-DD HH:mm:ss.sss malformed".data ['%', 'd'] = none ∧
    formatDate ("Date " ++ "%d\x7b" ++ "YYYY-MM-DD HH:mm:ss.sss malformed")
        ⟨2025, 11, 31, 9, 1, 5, 75, 1767168065075⟩
      = "Date " ++ "%d\x7b" ++ "YYYY-MM-DD HH:mm:ss.sss malformed" :=
  ⟨by decide, by decide, by decide,
   C7_malformed_date_pattern_verbatim.1 "Date " "YYYY-MM-DD HH:mm:ss.sss malformed"
     ⟨2025, 11, 31, 9, 1, 5, 75, 1767168065075⟩ (by decide) (by decide) (by decide)⟩
